import Mathlib

/-!
Verification development for the hand-progression simulator in
src/interactive_poker_simulator.py (class InteractivePokerSimulator).

Modelling conventions:
* Python strings are embedded as lists of characters (abbrev PyStr); a card
  such as "Ah" is the two-character list.
* Python floats (all monetary amounts and probabilities) are embedded as
  rationals; every float literal in the source is exact in decimal, so the
  arithmetic structure is preserved.
* Randomness is made explicit: every call to the process-wide random source
  is replaced by a field of a RandSrc record that the caller supplies
  (indices for random.choice, the stream of proposed cards for
  generate_board's rejection loop, the uniform betting increments, and the
  showdown draw u from random.random()).
* Code that can raise in Python (IndexError from indexing a too-short card
  string; the card-drawing loop running out of proposed cards) is embedded
  with Option, none marking the raising run.
* The textual progression log is embedded as a list of LogEntry values that
  carry the data interpolated into each printed line, not the formatted text.
-/

/-- Python str embedded as its list of characters. -/
abbrev PyStr := List Char

/-- Auxiliary recursion for pySplit: accumulates the current token (reversed). -/
def pySplitAux : List Char → List Char → List PyStr
  | [], cur => if cur = [] then [] else [cur.reverse]
  | c :: rest, cur =>
    if c.isWhitespace then
      if cur = [] then pySplitAux rest [] else cur.reverse :: pySplitAux rest []
    else pySplitAux rest (c :: cur)

/-- Python str.split() with no arguments: split on runs of whitespace,
dropping empty tokens. -/
def pySplit (s : PyStr) : List PyStr := pySplitAux s []

/-- The rank characters, from generate_board (line 176). -/
def RANKS : List Char := ['2', '3', '4', '5', '6', '7', '8', '9', 'T', 'J', 'Q', 'K', 'A']

/-- The suit characters, from generate_board (line 175). -/
def SUITS : List Char := ['h', 'd', 'c', 's']

/-- Model of random.choice(l): the random source supplies an index i and the
chosen element is l[i % len(l)] (every element is reachable, as with the
uniform choice in the source). -/
def pyChoice (l : List α) (i : ℕ) (d : α) : α := l.getD (i % l.length) d

/-- Digits of a numeral accumulated into a natural number. -/
def natFromDigits (cs : List Char) : ℕ :=
  cs.foldl (fun a c => a * 10 + (c.toNat - 48)) 0

/-- Continuation of the CPython digitpart grammar digit (["_"] digit)*
after its leading digit: underscores are permitted only between digits. -/
def digitpartRest : List Char → Bool
  | [] => true
  | '_' :: rest =>
    match rest with
    | [] => false
    | c :: rest2 => c.isDigit && digitpartRest rest2
  | c :: rest => c.isDigit && digitpartRest rest

/-- The CPython digitpart production: digit (["_"] digit)*. -/
def isDigitpart : List Char → Bool
  | [] => false
  | c :: rest => c.isDigit && digitpartRest rest

/-- The digits of a digitpart with the underscore separators removed. -/
def digitpartDigits (cs : List Char) : List Char := cs.filter (fun c => c ≠ '_')

/-- Integer value of a digitpart (0 for the absent optional digitpart). -/
def digitpartVal (cs : List Char) : ℚ := (natFromDigits (digitpartDigits cs) : ℚ)

/-- Fractional value of the digitpart after the decimal point. -/
def fracVal (cs : List Char) : ℚ :=
  (natFromDigits (digitpartDigits cs) : ℚ) / (10 : ℚ) ^ (digitpartDigits cs).length

/-- The CPython number production for float():
[digitpart] "." digitpart | digitpart ["."]. -/
def parseNumber (cs : List Char) : Option ℚ :=
  let ip := cs.takeWhile (fun c => c ≠ '.')
  let rest := cs.dropWhile (fun c => c ≠ '.')
  match rest with
  | [] => if isDigitpart ip then some (digitpartVal ip) else none
  | _ :: frac =>
    if frac.any (fun c => c = '.') then none
    else if isDigitpart ip ∧ frac = [] then some (digitpartVal ip)
    else if isDigitpart frac then
      if ip = [] ∨ isDigitpart ip then some (digitpartVal ip + fracVal frac) else none
    else none

/-- The CPython exponent production: ("e" | "E") [sign] digitpart (the
marker character has already been consumed by the caller). -/
def parseExp (cs : List Char) : Option ℤ :=
  match cs with
  | '+' :: r => if isDigitpart r then some ((natFromDigits (digitpartDigits r) : ℤ)) else none
  | '-' :: r => if isDigitpart r then some (-(natFromDigits (digitpartDigits r) : ℤ)) else none
  | r => if isDigitpart r then some ((natFromDigits (digitpartDigits r) : ℤ)) else none

/-- The CPython floatnumber production, number [exponent]: mantissa up to the
first e/E marker, then a signed exponent applied as a power of ten. -/
def pyFloatBody (cs : List Char) : Option ℚ :=
  let mant := cs.takeWhile (fun c => c ≠ 'e' ∧ c ≠ 'E')
  let rest := cs.dropWhile (fun c => c ≠ 'e' ∧ c ≠ 'E')
  match rest with
  | [] => parseNumber mant
  | _ :: ex =>
    match parseNumber mant, parseExp ex with
    | some m, some e => some (m * (10 : ℚ) ^ e)
    | _, _ => none

/-- Surrounding whitespace stripped, as float() does before parsing.  (The
only strings this program feeds to float() are tokens of str.split(), which
contain no whitespace, so this strip never fires on a program input.) -/
def pyStrip (cs : List Char) : List Char :=
  ((cs.dropWhile Char.isWhitespace).reverse.dropWhile Char.isWhitespace).reverse

/-- Model of the Python builtin float() applied to a string (the conversion
used at line 531), restricted to the finite values: optional surrounding
whitespace, an optional sign, then the CPython floatnumber grammar with
underscore digit separators, optional fractional part and optional decimal
exponent.  The decimal value is read exactly into the rationals (the
file-wide convention for floats).  Strings on which float() raises
ValueError are none; the inf/infinity/nan forms, on which float() returns a
non-finite value that the rational embedding cannot represent, are also none
here and are recognized separately by pyFloatSpecial. -/
def pyFloat (cs : List Char) : Option ℚ :=
  match pyStrip cs with
  | '-' :: rest => (pyFloatBody rest).map (fun q => -q)
  | '+' :: rest => pyFloatBody rest
  | r => pyFloatBody r

/-- The case-insensitive infinity and nan spellings of the float() grammar. -/
def specialNumeral (cs : List Char) : Bool :=
  let l := cs.map Char.toLower
  decide (l = "inf".data) || decide (l = "infinity".data) || decide (l = "nan".data)

/-- Strings on which float() succeeds but returns an IEEE infinity or NaN
(optional whitespace and sign around inf/infinity/nan, case-insensitive):
the resulting bet amount is non-finite and lies outside the rational
embedding. -/
def pyFloatSpecial (cs : PyStr) : Prop :=
  specialNumeral
    (match pyStrip cs with
     | '-' :: rest => rest
     | '+' :: rest => rest
     | r => r) = true

instance (cs : PyStr) : Decidable (pyFloatSpecial cs) := by
  unfold pyFloatSpecial; infer_instance

/-- One entry of the printed hand-progression log, carrying the data that the
source interpolates into the corresponding text line. -/
inductive LogEntry where
  | initial (street : PyStr) (act : PyStr) (amount : Option ℚ)
  | flopDeal (board : List PyStr) (pot : ℚ)
  | turnDeal (card : PyStr) (pot : ℚ)
  | riverDeal (card : PyStr) (pot : ℚ)
  | opponentAct (act : PyStr)
  | showdown (hero : PyStr) (board : List PyStr)
  | winResult (pot : ℚ)
  | loseResult (oppHand : PyStr)
  | foldNote
  deriving DecidableEq

/-- The game_state dict fields that the simulated hand progression reads
(position, hole_cards, board, street, pot_size, bet_to_call).  An absent
"board" key is embedded as the empty string, matching game_state.get("board", "")
and the truthiness test on it. -/
structure GameState where
  position : PyStr
  hole_cards : PyStr
  board : PyStr
  street : PyStr
  pot_size : ℚ
  bet_to_call : ℚ
  deriving DecidableEq

/-- The random outcomes consumed by one process_action call, in source order:
numCards indexes random.choice([3, 4, 5]); cards is the stream of
(random.choice(ranks), random.choice(suits)) proposals of generate_board's
rejection loop; turnBet is random.uniform(5, 15); riverBet is
random.uniform(10, 25); oppChoice indexes random.choice(["calls", "raises",
"calls"]); u is random.random(); oppHand indexes the display hand list. -/
structure RandSrc where
  numCards : ℕ
  cards : List (Char × Char)
  turnBet : ℚ
  riverBet : ℚ
  oppChoice : ℕ
  u : ℚ
  oppHand : ℕ
  deriving DecidableEq

/-- The dict returned by simulate_hand_progression (lines 700-707).  The
final_board is kept as the list of cards (the source joins it with spaces
for display only).  The fields hand_strength, win_probability, total_invested
and all_cards expose the local variables of the same names so that the
specification can speak about them. -/
structure ProgressionResult where
  action : PyStr
  outcome : PyStr
  amount_change : ℚ
  hand_progression : List LogEntry
  final_board : List PyStr
  final_pot : ℚ
  hand_strength : ℚ
  win_probability : ℚ
  total_invested : ℚ
  all_cards : List PyStr
  deriving DecidableEq

/-- The dict returned by process_action.  The fold branch (lines 548-554)
builds no board and no pot, hence the Option fields. -/
structure ActionResult where
  action : PyStr
  outcome : PyStr
  amount_change : ℚ
  new_stack : ℚ
  hand_progression : List LogEntry
  final_board : Option (List PyStr)
  final_pot : Option ℚ
  deriving DecidableEq

/-- One entry of self.session_hands (lines 565-573). -/
structure HandResult where
  hand_number : ℕ
  game_state : GameState
  action : PyStr
  outcome : PyStr
  stack_change : ℚ
  final_stack : ℚ
  progression : List LogEntry
  deriving DecidableEq

/-- The session fields of InteractivePokerSimulator mutated by the hand loop
(lines 49-55): starting_stack, current_stack, hands_played, session_hands. -/
structure SessionState where
  starting_stack : ℚ
  current_stack : ℚ
  hands_played : ℕ
  session_hands : List HandResult
  deriving DecidableEq

/-- The session state created by __init__ (lines 49-55): stack 100.0,
current_stack = starting_stack, no hands. -/
def initialSession : SessionState :=
  { starting_stack := 100, current_stack := 100, hands_played := 0, session_hands := [] }

/-- The reset command of main_loop (lines 865-869): current_stack back to
starting_stack, hands_played zeroed, session_hands cleared. -/
def reset_session (st : SessionState) : SessionState :=
  { st with current_stack := st.starting_stack, hands_played := 0, session_hands := [] }

/-- The flush-texture test of evaluate_hand_strength (line 745): the board's
distinct suit characters number at most 2. -/
def flush_possible (board : List PyStr) : Prop :=
  ((board.map (fun c => c.getD 1 ' ')).dedup).length ≤ 2

instance (board : List PyStr) : Decidable (flush_possible board) := by
  unfold flush_possible; infer_instance

/-- The straight-texture test of evaluate_hand_strength (line 747): two board
cards with different string representations whose rank characters have
character codes at distance at most 1 (the source compares abs(ord(a) - ord(b))
<= 1). -/
def straight_window (board : List PyStr) : Prop :=
  ∃ c ∈ board, ∃ o ∈ board, c ≠ o ∧
    (((c.getD 0 ' ').toNat : ℤ) - ((o.getD 0 ' ').toNat : ℤ)).natAbs ≤ 1

instance (board : List PyStr) : Decidable (straight_window board) := by
  unfold straight_window; infer_instance

/-- The texture condition as the specification sentence states it: two distinct
board cards with rank characters at ordinal distance exactly 1. -/
def spec_adjacent (board : List PyStr) : Prop :=
  ∃ c ∈ board, ∃ o ∈ board, c ≠ o ∧
    (((c.getD 0 ' ').toNat : ℤ) - ((o.getD 0 ' ').toNat : ℤ)).natAbs = 1

instance (board : List PyStr) : Decidable (spec_adjacent board) := by
  unfold spec_adjacent; infer_instance

/-- The hole-card part of evaluate_hand_strength (lines 716-740): ranks and
suits are extracted from the first two tokens (suit defaulting to 'h' for a
one-character token), then the nested rank/suit conditionals produce the
pre-board strength. -/
def pre_board_strength (hero_cards : PyStr) : ℚ :=
  let cards := pySplit hero_cards
  let card1 := cards.getD 0 []
  let card2 := cards.getD 1 []
  let rank1 := card1.getD 0 ' '
  let suit1 := if 1 < card1.length then card1.getD 1 'h' else 'h'
  let rank2 := card2.getD 0 ' '
  let suit2 := if 1 < card2.length then card2.getD 1 'h' else 'h'
  if rank1 = rank2 then
    if rank1 ∈ ['A', 'K', 'Q'] then 0.85
    else if rank1 ∈ ['J', 'T', '9'] then 0.75
    else 0.65
  else if rank1 ∈ ['A', 'K'] ∨ rank2 ∈ ['A', 'K'] then
    if suit1 = suit2 then 0.70 else 0.65
  else if suit1 = suit2 then 0.4 + 0.1
  else 0.4

/-- evaluate_hand_strength (lines 709-750).  Fewer than two parsed hole cards
return 0.5 before any board access.  On a non-empty board the suit of every
board card is read (card[1] inside the set comprehension on line 745), so a
board card shorter than two characters raises IndexError; that run is
embedded as none.  Otherwise the two texture multipliers apply and the
result is clamped by min(strength, 1.0). -/
def evaluate_hand_strength (hero_cards : PyStr) (board_cards : List PyStr) : Option ℚ :=
  if (pySplit hero_cards).length < 2 then some 0.5
  else
    let strength := pre_board_strength hero_cards
    if board_cards = [] then some (min strength 1)
    else if ∀ c ∈ board_cards, 2 ≤ c.length then
      let s1 := if flush_possible board_cards then strength * 0.9 else strength
      let s2 := if straight_window board_cards then s1 * 0.9 else s1
      some (min s2 1)
    else none

/-- The body of generate_board's while-loop (lines 184-191): take proposed
(rank, suit) pairs from the stream until one forms a card not yet used;
none if the stream runs out (the Python loop would keep drawing). -/
def drawFresh : List (Char × Char) → List PyStr → Option (PyStr × List (Char × Char))
  | [], _ => none
  | (rk, su) :: rest, used =>
    let card : PyStr := [rk, su]
    if card ∈ used then drawFresh rest used else some (card, rest)

/-- The for-loop of generate_board (lines 183-191): draw n fresh cards,
each excluded only against the cards generated so far in this call. -/
def genCardsAux : ℕ → List (Char × Char) → List PyStr → Option (List PyStr)
  | 0, _, acc => some acc
  | n + 1, stream, acc =>
    match drawFresh stream acc with
    | none => none
    | some (c, rest) => genCardsAux n rest (acc ++ [c])

/-- generate_board (lines 173-193): num_cards = random.choice([3, 4, 5]),
then num_cards cards drawn with the rejection loop.  Note the exclusion set
used starts empty: nothing outside this call (hole cards, an existing board)
is excluded. -/
def generate_board (numChoice : ℕ) (stream : List (Char × Char)) : Option (List PyStr) :=
  genCardsAux (pyChoice [3, 4, 5] numChoice 3) stream []

/-- The fixed display list of generate_opponent_hand (lines 754-757). -/
def OPPONENT_HANDS : List PyStr :=
  ["Kh Qd".data, "Jc Ts".data, "9h 8s".data, "Ah 5d".data, "Qd Jh".data,
   "Tc 9c".data, "8d 7h".data, "As Kd".data, "Qh Qc".data, "Jd Jh".data]

/-- generate_opponent_hand (lines 752-758): random.choice over the display
list, the index supplied by the random source. -/
def generate_opponent_hand (i : ℕ) : PyStr := pyChoice OPPONENT_HANDS i []

/-- The street list of simulate_hand_progression (line 606). -/
def street_order : List PyStr := ["preflop".data, "flop".data, "turn".data, "river".data]

/-- Line 607: street_order.index(street) if street in street_order else 0. -/
def currentStreetIndex (street : PyStr) : ℕ :=
  if street ∈ street_order then street_order.findIdx (fun s => decide (s = street)) else 0

/-- The mutable locals of the street loop of simulate_hand_progression:
board_cards, current_pot, hand_strength and the progression log. -/
structure LoopState where
  board : List PyStr
  pot : ℚ
  strength : ℚ
  log : List LogEntry
  deriving DecidableEq

/-- One iteration of the street loop (lines 628-662).  The flop branch slices
three cards without a pot increment; the turn and river branches require a
card to be available (else only a skip message is printed, which the source
does not append to the progression list); the river branch re-runs
evaluate_hand_strength on the current board whether or not a river card was
dealt. -/
def streetStepOne (hero : PyStr) (all_cards : List PyStr) (turnBet riverBet : ℚ)
    (s : LoopState) (ns : PyStr) : Option LoopState :=
  if ns = "flop".data ∧ s.board.length = 0 then
    let b := all_cards.take 3
    some { s with board := b, log := s.log ++ [LogEntry.flopDeal b s.pot] }
  else if ns = "turn".data ∧ s.board.length = 3 then
    if 3 < all_cards.length then
      let pot := s.pot + turnBet
      some { board := all_cards.take 4, pot := pot, strength := s.strength,
             log := s.log ++ [LogEntry.turnDeal (all_cards.getD 3 []) pot] }
    else some s
  else if ns = "river".data ∧ s.board.length = 4 then
    let s1 : LoopState :=
      if 4 < all_cards.length then
        { board := all_cards.take 5, pot := s.pot + riverBet, strength := s.strength,
          log := s.log ++ [LogEntry.riverDeal (all_cards.getD 4 []) (s.pot + riverBet)] }
      else s
    match evaluate_hand_strength hero s1.board with
    | none => none
    | some h => some { s1 with strength := h }
  else some s

/-- The street loop itself (line 628): fold streetStepOne over the remaining
streets. -/
def streetFold (hero : PyStr) (all_cards : List PyStr) (turnBet riverBet : ℚ) :
    List PyStr → LoopState → Option LoopState
  | [], s => some s
  | ns :: rest, s =>
    match streetStepOne hero all_cards turnBet riverBet s ns with
    | none => none
    | some s1 => streetFold hero all_cards turnBet riverBet rest s1

/-- The showdown tail of simulate_hand_progression (lines 670-707):
win_probability is the hand strength plus 0.1 for position in ["BTN", "CO"]
plus 0.05 when the action starts with "raise"; the final board is
all_cards[:5] when at least five cards exist, else the current board; the
draw u decides win (pot minus total_invested) against lose (minus
total_invested, with a display opponent hand). -/
def resolveShowdown (action position hero : PyStr) (strength pot total_invested : ℚ)
    (board all_cards : List PyStr) (log : List LogEntry) (u : ℚ) (oppHandIdx : ℕ) :
    ProgressionResult :=
  let wp1 := if position ∈ ["BTN".data, "CO".data] then strength + 0.1 else strength
  let win_probability := if "raise".data.isPrefixOf action then wp1 + 0.05 else wp1
  let final_board := if 5 ≤ all_cards.length then all_cards.take 5 else board
  let log1 := log ++ [LogEntry.showdown hero final_board]
  if u < win_probability then
    { action := action, outcome := "win".data, amount_change := pot - total_invested,
      hand_progression := log1 ++ [LogEntry.winResult pot], final_board := final_board,
      final_pot := pot, hand_strength := strength, win_probability := win_probability,
      total_invested := total_invested, all_cards := all_cards }
  else
    { action := action, outcome := "lose".data, amount_change := -total_invested,
      hand_progression := log1 ++ [LogEntry.loseResult (generate_opponent_hand oppHandIdx)],
      final_board := final_board, final_pot := pot, hand_strength := strength,
      win_probability := win_probability, total_invested := total_invested,
      all_cards := all_cards }

/-- simulate_hand_progression (lines 578-707).  The board is parsed from the
game state; the initial action adds bet_amount (or bet_to_call when no
positive bet) to the pot; the cards for the remaining streets come from
generate_board, either wholesale (empty board) or topped up to five cards;
the street loop deals them; the showdown tail resolves the outcome. -/
def simulate_hand_progression (action : PyStr) (bet_amount : ℚ) (gs : GameState)
    (r : RandSrc) : Option ProgressionResult :=
  let board0 := if gs.board ≠ [] then pySplit gs.board else []
  match evaluate_hand_strength gs.hole_cards board0 with
  | none => none
  | some hs0 =>
    let current_pot := gs.pot_size + (if 0 < bet_amount then bet_amount else gs.bet_to_call)
    let total_invested := if 0 < bet_amount then bet_amount else gs.bet_to_call
    let log0 : List LogEntry :=
      [LogEntry.initial gs.street action (if 0 < bet_amount then some bet_amount else none)]
    let streets := street_order.drop (currentStreetIndex gs.street + 1)
    let allCardsOpt : Option (List PyStr) :=
      if board0 = [] then generate_board r.numCards r.cards
      else if board0.length < 5 then
        match generate_board r.numCards r.cards with
        | none => none
        | some additional => some (board0 ++ additional.take (5 - board0.length))
      else some board0
    match allCardsOpt with
    | none => none
    | some all_cards =>
      match streetFold gs.hole_cards all_cards r.turnBet r.riverBet streets
          { board := board0, pot := current_pot, strength := hs0, log := log0 } with
      | none => none
      | some s =>
        let opp := pyChoice ["calls".data, "raises".data, "calls".data] r.oppChoice "calls".data
        some (resolveShowdown action gs.position gs.hole_cards s.strength s.pot total_invested
          s.board all_cards (s.log ++ [LogEntry.opponentAct opp]) r.u r.oppHand)

/-- The bet-amount parsing of process_action (lines 524-535): for an action
starting with "bet" or "raise", a second token is parsed with float(),
falling back to 5 on ValueError; with no second token the default is
max(bet_to_call * 2, 5); every other action leaves bet_amount = 0.  A second
token on which float() returns an IEEE infinity or NaN (e.g. "bet inf")
makes the program proceed with a non-finite bet amount; that run leaves the
rational embedding and is marked none. -/
def compute_bet_amount (action : PyStr) (bet_to_call : ℚ) : Option ℚ :=
  if "bet".data.isPrefixOf action ∨ "raise".data.isPrefixOf action then
    let parts := pySplit action
    if 1 < parts.length then
      if pyFloatSpecial (parts.getD 1 []) then none
      else
        match pyFloat (parts.getD 1 []) with
        | some v => some v
        | none => some 5
    else some (max (bet_to_call * 2) 5)
  else some 0

/-- process_action (lines 522-576).  The fold branch charges bet_to_call,
records a one-entry progression and touches no pot; every other action runs
simulate_hand_progression and applies its amount_change.  Either branch
appends one record to session_hands.  A run on which the simulation raises
is none (the caller's session state is then unchanged: the mutations below
all happen after the call that can raise), as is a run whose bet amount is
non-finite (see compute_bet_amount). -/
def process_action (action : PyStr) (gs : GameState) (r : RandSrc) (st : SessionState) :
    Option (ActionResult × SessionState) :=
  match compute_bet_amount action gs.bet_to_call with
  | none => none
  | some bet_amount =>
    if action = "fold".data then
      let result_amount := -gs.bet_to_call
      let stack1 := st.current_stack + result_amount
      let res : ActionResult :=
        { action := action, outcome := "fold".data, amount_change := result_amount,
          new_stack := stack1, hand_progression := [LogEntry.foldNote],
          final_board := none, final_pot := none }
      let hand : HandResult :=
        { hand_number := st.hands_played + 1, game_state := gs, action := action,
          outcome := res.outcome, stack_change := res.amount_change, final_stack := stack1,
          progression := res.hand_progression }
      some (res, { st with current_stack := stack1, session_hands := st.session_hands ++ [hand] })
    else
      match simulate_hand_progression action bet_amount gs r with
      | none => none
      | some prog =>
        let stack1 := st.current_stack + prog.amount_change
        let res : ActionResult :=
          { action := prog.action, outcome := prog.outcome, amount_change := prog.amount_change,
            new_stack := stack1, hand_progression := prog.hand_progression,
            final_board := some prog.final_board, final_pot := some prog.final_pot }
        let hand : HandResult :=
          { hand_number := st.hands_played + 1, game_state := gs, action := action,
            outcome := res.outcome, stack_change := res.amount_change, final_stack := stack1,
            progression := res.hand_progression }
        some (res, { st with current_stack := stack1, session_hands := st.session_hands ++ [hand] })

/-- The stats record printed by show_session_stats (lines 799-804). -/
structure SessionStats where
  hands_played : ℕ
  starting_stack : ℚ
  current_stack : ℚ
  total_profit : ℚ
  win_rate : ℚ
  deriving DecidableEq

/-- show_session_stats (lines 788-804): the empty ledger prints the "No hands
played yet!" sentinel and returns before any division (none here); otherwise
win_rate is the count of "win" outcomes over the number of recorded hands. -/
def show_session_stats (st : SessionState) : Option SessionStats :=
  if st.session_hands = [] then none
  else
    some { hands_played := st.session_hands.length,
           starting_stack := st.starting_stack,
           current_stack := st.current_stack,
           total_profit := st.current_stack - st.starting_stack,
           win_rate := (st.session_hands.countP (fun h => decide (h.outcome = "win".data)) : ℚ)
             / (st.session_hands.length : ℚ) }

/-- One interactive action command: the inputs main_loop passes to
process_action, together with the random outcomes that call consumes. -/
structure CallInput where
  action : PyStr
  gs : GameState
  rand : RandSrc

/-- One action command as executed by main_loop (lines 884-897): a successful
call also increments hands_played (line 891); on a raising run the exception
is caught by the loop's handler before that increment and the session state
is unchanged. -/
def applyCall (st : SessionState) (c : CallInput) : SessionState :=
  match process_action c.action c.gs c.rand st with
  | none => st
  | some p => { p.2 with hands_played := p.2.hands_played + 1 }

/-- Sum of the stack_change fields of the recorded hands. -/
def sumStackChanges (hands : List HandResult) : ℚ := (hands.map (fun h => h.stack_change)).sum

/-- The bankroll-ledger invariant: current_stack is starting_stack plus the
sum of all recorded stack changes. -/
def stackInvariant (st : SessionState) : Prop :=
  st.current_stack = st.starting_stack + sumStackChanges st.session_hands

/-- Concrete game state used to exhibit the card-collision run: hero holds
Ah As on the button, preflop, pot 3, bet_to_call 2. -/
def c1gs : GameState :=
  { position := "BTN".data, hole_cards := "Ah As".data, board := [], street := "preflop".data,
    pot_size := 3, bet_to_call := 2 }

/-- Concrete random outcomes whose card stream proposes Ah first: the flop
then contains the hero's own ace. -/
def c1rand : RandSrc :=
  { numCards := 0, cards := [('A', 'h'), ('K', 'd'), ('Q', 'c')], turnBet := 10, riverBet := 15,
    oppChoice := 0, u := 0, oppHand := 0 }

/-- Concrete game state for a closed showdown run. -/
def c2gs : GameState :=
  { position := "BTN".data, hole_cards := "Ah As".data, board := [], street := "preflop".data,
    pot_size := 3, bet_to_call := 2 }

/-- Concrete random outcomes for the closed showdown run: three fresh flop
cards, showdown draw 0. -/
def c2rand : RandSrc :=
  { numCards := 0, cards := [('K', 'd'), ('Q', 'c'), ('2', 'd')], turnBet := 10, riverBet := 15,
    oppChoice := 0, u := 0, oppHand := 0 }

/-- The progression result of the closed showdown run (calling with pocket
aces, flop Kd Qc 2d, no turn or river card drawn, position bonus 0.1,
winning draw). -/
def c2res : ProgressionResult :=
  { action := "call".data, outcome := "win".data, amount_change := 3,
    hand_progression :=
      [LogEntry.initial "preflop".data "call".data none,
       LogEntry.flopDeal ["Kd".data, "Qc".data, "2d".data] 5,
       LogEntry.opponentAct "calls".data,
       LogEntry.showdown "Ah As".data ["Kd".data, "Qc".data, "2d".data],
       LogEntry.winResult 5],
    final_board := ["Kd".data, "Qc".data, "2d".data], final_pot := 5,
    hand_strength := 0.85, win_probability := 0.95, total_invested := 2,
    all_cards := ["Kd".data, "Qc".data, "2d".data] }

/-- A game state shared by the concrete session records below. -/
def c8gs : GameState :=
  { position := "BB".data, hole_cards := "2c 7d".data, board := [], street := "preflop".data,
    pot_size := 3, bet_to_call := 2 }

/-- A recorded winning hand. -/
def c8winHand : HandResult :=
  { hand_number := 1, game_state := c8gs, action := "call".data, outcome := "win".data,
    stack_change := 3, final_stack := 103, progression := [] }

/-- A recorded losing hand. -/
def c8loseHand : HandResult :=
  { hand_number := 2, game_state := c8gs, action := "call".data, outcome := "lose".data,
    stack_change := -2, final_stack := 101, progression := [] }

/-- A session ledger with one win and one loss recorded. -/
def c8st : SessionState :=
  { starting_stack := 100, current_stack := 101, hands_played := 2,
    session_hands := [c8winHand, c8loseHand] }

/-- Concrete game state for a closed fold run (bet_to_call 4). -/
def c10gs : GameState :=
  { position := "BB".data, hole_cards := "2c 7d".data, board := [], street := "preflop".data,
    pot_size := 3, bet_to_call := 4 }

/-- Random outcomes for the fold run (none are consumed by a fold). -/
def c10rand : RandSrc :=
  { numCards := 0, cards := [], turnBet := 0, riverBet := 0, oppChoice := 0, u := 0, oppHand := 0 }

/-- The action result of folding the c10 game from the initial session. -/
def c10res : ActionResult :=
  { action := "fold".data, outcome := "fold".data, amount_change := -4, new_stack := 96,
    hand_progression := [LogEntry.foldNote], final_board := none, final_pot := none }

/-- The session record appended by that fold. -/
def c10hand : HandResult :=
  { hand_number := 1, game_state := c10gs, action := "fold".data, outcome := "fold".data,
    stack_change := -4, final_stack := 96, progression := [LogEntry.foldNote] }

/-- The session state after that fold. -/
def c10st : SessionState :=
  { starting_stack := 100, current_stack := 96, hands_played := 0, session_hands := [c10hand] }

/-- Bounds for the pre-board strength: every branch of the hole-card
conditional yields a value between 0 and 1. -/
theorem pre_board_strength_bounds (hero : PyStr) :
    0 ≤ pre_board_strength hero ∧ pre_board_strength hero ≤ 1 := by
  unfold pre_board_strength
  dsimp only
  split_ifs <;> norm_num

/-- C3: for every hole-cards string and every list of board cards (each board
card being an actual card string of at least two characters; the malformed
hole-cards case with fewer than two parsed cards is included and yields 0.5),
evaluate_hand_strength returns a value between 0 and 1. -/
theorem c3_strength_in_unit_interval (hero : PyStr) (board : List PyStr)
    (hb : ∀ c ∈ board, 2 ≤ c.length) :
    ∃ q, evaluate_hand_strength hero board = some q ∧ 0 ≤ q ∧ q ≤ 1 := by
  obtain ⟨hp0, hp1⟩ := pre_board_strength_bounds hero
  unfold evaluate_hand_strength
  dsimp only
  split_ifs <;>
    first
      | exact ⟨0.5, rfl, by norm_num, by norm_num⟩
      | exact absurd hb (by assumption)
      | exact ⟨_, rfl, le_min (by nlinarith) zero_le_one, min_le_right _ _⟩

/-- C3 witness: a concrete well-formed input evaluated through the theorem. -/
theorem c3_strength_in_unit_interval_witness :
    ∃ q, evaluate_hand_strength "Ah Kh".data ["2h".data, "7d".data, "Qc".data] = some q ∧
      0 ≤ q ∧ q ≤ 1 :=
  c3_strength_in_unit_interval ("Ah Kh".data) ["2h".data, "7d".data, "Qc".data] (by decide)

/-- C4: a pocket pair with an empty board scores 0.85 for ranks A, K, Q;
0.75 for J, T, 9; and 0.65 for every other rank. -/
theorem c4_pocket_pair_values :
    ∀ r ∈ RANKS, ∀ u ∈ SUITS, ∀ v ∈ SUITS,
      evaluate_hand_strength [r, u, ' ', r, v] [] =
        some (if r ∈ ['A', 'K', 'Q'] then 0.85
              else if r ∈ ['J', 'T', '9'] then 0.75 else 0.65) := by
  with_unfolding_all decide

/-- C4 witness: pocket aces preflop score exactly 0.85. -/
theorem c4_pocket_pair_values_witness :
    evaluate_hand_strength ['A', 'h', ' ', 'A', 's'] [] = some 0.85 := by
  have h := c4_pocket_pair_values 'A' (by decide) 'h' (by decide) 's' (by decide)
  rw [h]
  with_unfolding_all decide

/-- C5 counterexample: on the paired board 2h 2s no two distinct cards have
rank characters at ordinal distance exactly 1, yet the code applies the
straight-texture multiplier (its test accepts distance 0 between distinct
card strings), so the strength is 0.4 * 0.9 * 0.9 and not the 0.4 * 0.9 the
claim predicts. -/
theorem c5_paired_board_counterexample :
    ¬ spec_adjacent ["2h".data, "2s".data] ∧
    evaluate_hand_strength "7h 8d".data ["2h".data, "2s".data] = some (0.4 * 0.9 * 0.9) ∧
    (0.4 * 0.9 * 0.9 : ℚ) ≠ 0.4 * 0.9 := by
  refine ⟨by decide, ?_, by norm_num⟩
  with_unfolding_all decide

/-- C5 amended: for a well-formed hand, an empty board gets no texture
adjustment, and a non-empty board of well-formed cards multiplies the
pre-board strength by 0.9 exactly when the distinct-suit count is at most 2
and by a further 0.9 exactly when two board cards with different string
representations have rank characters at ordinal (character-code) distance at
most 1 — distance 0 between distinct representations (a paired board)
triggers it as well; the two multipliers stack. -/
theorem c5_board_texture_amended (hero : PyStr) (board : List PyStr)
    (hh : 2 ≤ (pySplit hero).length) :
    (board = [] → evaluate_hand_strength hero [] = some (min (pre_board_strength hero) 1)) ∧
    (board ≠ [] → (∀ c ∈ board, 2 ≤ c.length) →
      evaluate_hand_strength hero board =
        some (min (pre_board_strength hero
          * (if flush_possible board then 0.9 else 1)
          * (if straight_window board then 0.9 else 1)) 1)) := by
  constructor
  · intro _
    unfold evaluate_hand_strength
    rw [if_neg (by omega), if_pos rfl]
  · intro hne hlen
    unfold evaluate_hand_strength
    dsimp only
    rw [if_neg (by omega), if_neg hne, if_pos hlen]
    split_ifs with hf hs <;>
      exact congrArg (fun t => some (min t 1)) (by ring)

/-- C5 amended witness: ace-king suited on an all-hearts ragged board takes
only the flush multiplier: 0.70 * 0.9 = 0.63. -/
theorem c5_board_texture_amended_witness :
    evaluate_hand_strength "Ah Kh".data ["2h".data, "7h".data, "Qh".data] = some 0.63 := by
  have h := (c5_board_texture_amended "Ah Kh".data ["2h".data, "7h".data, "Qh".data]
    (by decide)).2 (by decide) (by decide)
  rw [h]
  with_unfolding_all decide

set_option maxRecDepth 8000 in
/-- Sanity checks for the float() model on the forms the grammar must get
right: scientific notation and underscore separators parse to their values,
genuinely malformed tokens do not, and the non-finite spellings are
recognized (case-insensitively, with sign) as special rather than parsed. -/
theorem pyFloat_examples :
    pyFloat "1e3".data = some 1000 ∧ pyFloat "1_000".data = some 1000 ∧
    pyFloat "6.5".data = some (13 / 2) ∧ pyFloat "1.5e-2".data = some (3 / 200) ∧
    pyFloat ".5".data = some (1 / 2) ∧ pyFloat "5.".data = some 5 ∧
    pyFloat "x".data = none ∧ pyFloat "1__0".data = none ∧ pyFloat "1e".data = none ∧
    pyFloat "1_".data = none ∧ pyFloat ".".data = none ∧
    pyFloat "inf".data = none ∧ pyFloatSpecial "inf".data ∧ pyFloatSpecial "-inf".data ∧
    pyFloatSpecial "NaN".data ∧ pyFloatSpecial "Infinity".data ∧
    ¬ pyFloatSpecial "1e3".data := by
  refine ⟨?_, ?_, ?_, ?_, ?_, ?_, ?_, ?_, ?_, ?_, ?_, ?_, ?_, ?_, ?_, ?_, ?_⟩ <;>
    with_unfolding_all decide

/-- C6 counterexample: for action "bet x" with bet_to_call 10 the amount is
given but unparsable (float("x") raises ValueError); the code falls back to
5, not to max(2 * bet_to_call, 5) = 20 as the claim states. -/
theorem c6_unparsable_amount_counterexample :
    compute_bet_amount "bet x".data 10 = some 5 ∧ max ((10 : ℚ) * 2) 5 = 20 ∧ (5 : ℚ) ≠ 20 := by
  refine ⟨?_, ?_, by norm_num⟩ <;> with_unfolding_all decide

/-- C6 amended: for an action starting with "bet" or "raise", the bet amount
equals the parsed numeric argument when a second token is given and float()
parses it to a finite value; it equals max(2 * bet_to_call, 5) when the
amount is omitted; and it equals the fixed fallback 5 when an amount is
given but float() raises ValueError.  A second token spelling an IEEE
infinity or NaN gives a non-finite bet amount outside the rational
embedding: that run is none and excluded from the three branches. -/
theorem c6_bet_amount_amended (action : PyStr) (btc : ℚ)
    (hpre : "bet".data.isPrefixOf action ∨ "raise".data.isPrefixOf action) :
    ((pySplit action).length ≤ 1 → compute_bet_amount action btc = some (max (btc * 2) 5)) ∧
    (∀ v, 1 < (pySplit action).length →
      ¬ pyFloatSpecial ((pySplit action).getD 1 []) →
      pyFloat ((pySplit action).getD 1 []) = some v →
      compute_bet_amount action btc = some v) ∧
    (1 < (pySplit action).length →
      ¬ pyFloatSpecial ((pySplit action).getD 1 []) →
      pyFloat ((pySplit action).getD 1 []) = none →
      compute_bet_amount action btc = some 5) ∧
    (1 < (pySplit action).length → pyFloatSpecial ((pySplit action).getD 1 []) →
      compute_bet_amount action btc = none) := by
  unfold compute_bet_amount
  rw [if_pos hpre]
  dsimp only
  refine ⟨?_, ?_, ?_, ?_⟩
  · intro hle
    rw [if_neg (by omega)]
  · intro v hlt hns hv
    rw [if_pos hlt, if_neg hns, hv]
  · intro hlt hns hv
    rw [if_pos hlt, if_neg hns, hv]
  · intro hlt hsp
    rw [if_pos hlt, if_pos hsp]

/-- C6 amended witness: "raise 7" parses and the amount is 7. -/
theorem c6_bet_amount_amended_witness : compute_bet_amount "raise 7".data 3 = some 7 :=
  (c6_bet_amount_amended "raise 7".data 3 (Or.inr (by decide))).2.1 7 (by decide)
    (by decide) (by with_unfolding_all decide)

/-- C9: reset restores current_stack to starting_stack, clears the recorded
hands, and leaves starting_stack unchanged. -/
theorem c9_reset_state (st : SessionState) :
    (reset_session st).current_stack = st.starting_stack ∧
    (reset_session st).session_hands = [] ∧
    (reset_session st).starting_stack = st.starting_stack :=
  ⟨rfl, rfl, rfl⟩

/-- Showdown-tail lemma: every result built by resolveShowdown satisfies the
win-probability decomposition and the two outcome branches of the draw. -/
theorem resolveShowdown_c2shape (action position hero : PyStr) (strength pot ti : ℚ)
    (board all_cards : List PyStr) (log : List LogEntry) (u : ℚ) (oi : ℕ) :
    (resolveShowdown action position hero strength pot ti board all_cards log u oi).win_probability
        = (resolveShowdown action position hero strength pot ti board all_cards log u oi).hand_strength
          + (if position ∈ ["BTN".data, "CO".data] then (0.1 : ℚ) else 0)
          + (if "raise".data.isPrefixOf action then (0.05 : ℚ) else 0) ∧
    (resolveShowdown action position hero strength pot ti board all_cards log u oi).total_invested
        = ti ∧
    (u < (resolveShowdown action position hero strength pot ti board all_cards log u oi).win_probability →
      (resolveShowdown action position hero strength pot ti board all_cards log u oi).outcome = "win".data ∧
      (resolveShowdown action position hero strength pot ti board all_cards log u oi).amount_change
        = (resolveShowdown action position hero strength pot ti board all_cards log u oi).final_pot
          - (resolveShowdown action position hero strength pot ti board all_cards log u oi).total_invested) ∧
    (¬ u < (resolveShowdown action position hero strength pot ti board all_cards log u oi).win_probability →
      (resolveShowdown action position hero strength pot ti board all_cards log u oi).outcome = "lose".data ∧
      (resolveShowdown action position hero strength pot ti board all_cards log u oi).amount_change
        = -(resolveShowdown action position hero strength pot ti board all_cards log u oi).total_invested) := by
  unfold resolveShowdown
  dsimp only
  split_ifs with hpos hraise hlen hlt <;>
    refine ⟨by ring, rfl, ?_, ?_⟩ <;> intro h <;>
      first
        | exact ⟨rfl, rfl⟩
        | exact absurd (by assumption : u < _) (by assumption)

/-- C2: for every non-fold action, with the showdown draw u in [0, 1), the
win probability is the final hand-strength estimate plus 0.10 exactly for
positions BTN and CO plus 0.05 exactly for a raise action; a draw below it
wins the final pot minus the total investment, any other draw loses the
total investment, which is the bet amount when positive and bet_to_call
otherwise. -/
theorem c2_showdown_resolution (action : PyStr) (bet_amount : ℚ) (gs : GameState)
    (r : RandSrc) (res : ProgressionResult)
    (_hnf : action ≠ "fold".data) (_hu0 : 0 ≤ r.u) (_hu1 : r.u < 1)
    (h : simulate_hand_progression action bet_amount gs r = some res) :
    res.win_probability = res.hand_strength
        + (if gs.position ∈ ["BTN".data, "CO".data] then (0.1 : ℚ) else 0)
        + (if "raise".data.isPrefixOf action then (0.05 : ℚ) else 0) ∧
    res.total_invested = (if 0 < bet_amount then bet_amount else gs.bet_to_call) ∧
    (r.u < res.win_probability →
      res.outcome = "win".data ∧ res.amount_change = res.final_pot - res.total_invested) ∧
    (¬ r.u < res.win_probability →
      res.outcome = "lose".data ∧ res.amount_change = -res.total_invested) := by
  unfold simulate_hand_progression at h
  dsimp only at h
  split at h
  · exact absurd h (by simp)
  · split at h
    · exact absurd h (by simp)
    · split at h
      · exact absurd h (by simp)
      · simp only [Option.some.injEq] at h
        subst h
        exact resolveShowdown_c2shape _ _ _ _ _ _ _ _ _ _ _

/-- C2 witness: the closed run c2gs/c2rand (calling with pocket aces on the
button, winning draw 0) evaluated through the theorem. -/
theorem c2_showdown_resolution_witness :
    c2res.win_probability = c2res.hand_strength
        + (if c2gs.position ∈ ["BTN".data, "CO".data] then (0.1 : ℚ) else 0)
        + (if "raise".data.isPrefixOf "call".data then (0.05 : ℚ) else 0) ∧
    c2res.total_invested = (if (0 : ℚ) < 0 then (0 : ℚ) else c2gs.bet_to_call) ∧
    (c2rand.u < c2res.win_probability →
      c2res.outcome = "win".data ∧ c2res.amount_change = c2res.final_pot - c2res.total_invested) ∧
    (¬ c2rand.u < c2res.win_probability →
      c2res.outcome = "lose".data ∧ c2res.amount_change = -c2res.total_invested) :=
  c2_showdown_resolution "call".data 0 c2gs c2rand c2res (by decide)
    (by with_unfolding_all decide) (by with_unfolding_all decide)
    (by with_unfolding_all decide)

/-- C1: a concrete run showing the collision bug: with hero holding Ah As and
an empty board, the proposed card stream beginning with Ah is accepted, so
the dealt board contains the hero's own hole card Ah.  The source's
generate_board excludes only cards generated within the same call, never the
hole cards or an existing board. -/
theorem c1_board_collision_bug :
    ((simulate_hand_progression "call".data 0 c1gs c1rand).map
      (fun res => decide ("Ah".data ∈ res.final_board))) = some true ∧
    "Ah".data ∈ pySplit c1gs.hole_cards := by
  constructor
  · with_unfolding_all decide
  · decide

/-- C7: folding always succeeds, yields outcome "fold", amount_change exactly
minus bet_to_call, a one-entry hand progression, no dealt board and no pot
(the fold branch never touches the pot), and debits the stack by
bet_to_call. -/
theorem c7_fold_outcome (gs : GameState) (r : RandSrc) (st : SessionState) :
    ∃ res st', process_action "fold".data gs r st = some (res, st') ∧
      res.outcome = "fold".data ∧ res.amount_change = -gs.bet_to_call ∧
      res.hand_progression.length = 1 ∧ res.final_pot = none ∧ res.final_board = none ∧
      st'.current_stack = st.current_stack - gs.bet_to_call := by
  refine ⟨_, _, rfl, rfl, rfl, rfl, rfl, rfl, ?_⟩
  show st.current_stack + -gs.bet_to_call = st.current_stack - gs.bet_to_call
  rw [sub_eq_add_neg]

/-- C8: on an empty ledger the stats query returns the "no hands" sentinel
without dividing; on a non-empty ledger the reported win rate is the number
of "win" outcomes divided by the number of recorded hands. -/
theorem c8_win_rate (st : SessionState) :
    (st.session_hands = [] → show_session_stats st = none) ∧
    (st.session_hands ≠ [] → ∃ s, show_session_stats st = some s ∧
      s.win_rate = (st.session_hands.countP (fun h => decide (h.outcome = "win".data)) : ℚ)
        / (st.session_hands.length : ℚ)) := by
  constructor
  · intro he
    unfold show_session_stats
    rw [if_pos he]
  · intro hne
    unfold show_session_stats
    rw [if_neg hne]
    exact ⟨_, rfl, rfl⟩

/-- C8 witness: a ledger with one win and one loss reports win rate 1/2. -/
theorem c8_win_rate_witness :
    ∃ s, show_session_stats c8st = some s ∧ s.win_rate = 1 / 2 := by
  obtain ⟨s, hs, hw⟩ := (c8_win_rate c8st).2 (by decide)
  refine ⟨s, hs, ?_⟩
  rw [hw]
  with_unfolding_all decide

/-- Every successful process_action call appends exactly one session record
whose stack_change is the amount applied to the stack; starting_stack is
untouched. -/
theorem processAction_append (a : PyStr) (gs : GameState) (r : RandSrc) (st : SessionState)
    (res : ActionResult) (st' : SessionState)
    (h : process_action a gs r st = some (res, st')) :
    ∃ hr : HandResult, st'.session_hands = st.session_hands ++ [hr] ∧
      hr.stack_change = res.amount_change ∧
      st'.current_stack = st.current_stack + res.amount_change ∧
      st'.starting_stack = st.starting_stack := by
  unfold process_action at h
  dsimp only at h
  split at h
  · exact absurd h (by simp)
  · split at h
    · simp only [Option.some.injEq, Prod.mk.injEq] at h
      obtain ⟨h1, h2⟩ := h
      subst h1
      subst h2
      exact ⟨_, rfl, rfl, rfl, rfl⟩
    · split at h
      · exact absurd h (by simp)
      · simp only [Option.some.injEq, Prod.mk.injEq] at h
        obtain ⟨h1, h2⟩ := h
        subst h1
        subst h2
        exact ⟨_, rfl, rfl, rfl, rfl⟩

/-- Appending one record adds its stack_change to the ledger sum. -/
theorem sumStackChanges_append (l : List HandResult) (hr : HandResult) :
    sumStackChanges (l ++ [hr]) = sumStackChanges l + hr.stack_change := by
  unfold sumStackChanges
  rw [List.map_append, List.sum_append]
  simp

/-- One interactive action call preserves the bankroll-ledger invariant
(a raising run leaves the state unchanged). -/
theorem applyCall_invariant (st : SessionState) (c : CallInput) (h : stackInvariant st) :
    stackInvariant (applyCall st c) := by
  unfold applyCall
  cases hp : process_action c.action c.gs c.rand st with
  | none => exact h
  | some p =>
    obtain ⟨hr, hh, hsc, hcs, hss⟩ := processAction_append _ _ _ _ p.1 p.2 hp
    unfold stackInvariant at h ⊢
    dsimp only
    rw [hh, sumStackChanges_append, hcs, hss]
    rw [hsc]
    linarith [h]

/-- The invariant is preserved by any sequence of action calls. -/
theorem foldl_invariant (calls : List CallInput) (st : SessionState) (h : stackInvariant st) :
    stackInvariant (calls.foldl applyCall st) := by
  induction calls generalizing st with
  | nil => exact h
  | cons c rest ih => exact ih _ (applyCall_invariant _ _ h)

/-- C10: after any sequence of process_action calls from session start or
from a reset, current_stack equals starting_stack plus the sum of the
recorded stack changes, and every successful call appends exactly one record
whose stack_change equals the amount by which it changed current_stack. -/
theorem c10_stack_ledger_invariant :
    (∀ calls : List CallInput, stackInvariant (calls.foldl applyCall initialSession)) ∧
    (∀ st : SessionState, ∀ calls : List CallInput,
      stackInvariant (calls.foldl applyCall (reset_session st))) ∧
    (∀ a gs r st res st', process_action a gs r st = some (res, st') →
      ∃ hr : HandResult, st'.session_hands = st.session_hands ++ [hr] ∧
        hr.stack_change = st'.current_stack - st.current_stack ∧
        res.amount_change = hr.stack_change) := by
  refine ⟨fun calls => foldl_invariant calls _ ?_, fun st calls => foldl_invariant calls _ ?_, ?_⟩
  · unfold stackInvariant initialSession sumStackChanges
    simp
  · unfold stackInvariant reset_session sumStackChanges
    simp
  · intro a gs r st res st' h
    obtain ⟨hr, hh, hsc, hcs, _⟩ := processAction_append _ _ _ _ _ _ h
    refine ⟨hr, hh, ?_, hsc.symm⟩
    rw [hcs, hsc]
    ring

/-- C10 witness: folding the c10 game from the fresh session appends one
record with stack_change -4 = 96 - 100. -/
theorem c10_stack_ledger_invariant_witness :
    ∃ hr : HandResult, c10st.session_hands = initialSession.session_hands ++ [hr] ∧
      hr.stack_change = c10st.current_stack - initialSession.current_stack ∧
      c10res.amount_change = hr.stack_change :=
  c10_stack_ledger_invariant.2.2 "fold".data c10gs c10rand initialSession c10res c10st
    (by with_unfolding_all decide)
